import Mathlib

/-!
Verification development for the n8n-nodes-pdfconvert repository.

The repository contains two variants of a PDF-to-image n8n node:
* an in-memory variant (class `PdfConvert` using `pdf-img-convert`), which
  owns the page-range parser `parsePageNumbers` and an item loop with a
  nested conversion try/catch;
* a file-based variant (class `PdfConvert` using `pdf2pic`), which writes
  the PDF to a temp file, converts via an external tool, reads the page
  images back and deletes temp files.

The definitions below are shallow embeddings of those functions.  JavaScript
string primitives (`split` on a single character, `trim`, `parseInt(_, 10)`,
lenient base64 decoding of `Buffer.from(s, 'base64')`) are modelled as
structural functions on character lists so that all results are computable.
-/

/-- JavaScript `String.prototype.split` with a single-character separator,
on a character list: `"" → [""]`, separators at the ends produce empty
fragments, exactly as in JS. -/
def splitCharList (sep : Char) : List Char → List (List Char)
  | [] => [[]]
  | c :: cs =>
    if c = sep then [] :: splitCharList sep cs
    else
      match splitCharList sep cs with
      | [] => [[c]]
      | t :: ts => (c :: t) :: ts

/-- JavaScript `str.split(sep)` for a one-character separator. -/
def jsSplit (s : String) (sep : Char) : List String :=
  (splitCharList sep s.data).map String.mk

/-- JavaScript `String.prototype.trim`: strip whitespace from both ends. -/
def jsTrim (s : String) : String :=
  String.mk (((s.data.dropWhile Char.isWhitespace).reverse.dropWhile
    Char.isWhitespace).reverse)

/-- JavaScript `String.prototype.includes` for a single character. -/
def jsContains (s : String) (c : Char) : Bool :=
  s.data.contains c

/-- Value of the longest digit prefix of a character list; `none` when there
is no leading digit (the `NaN` outcome of `parseInt`). -/
def digitsPrefixVal (cs : List Char) : Option Nat :=
  match cs.takeWhile Char.isDigit with
  | [] => none
  | ds => some (ds.foldl (fun acc c => acc * 10 + (c.toNat - 48)) 0)

/-- JavaScript `parseInt(s, 10)`: skip leading whitespace, read an optional
sign, then the longest digit prefix; `none` models `NaN`.  Trailing
non-digit characters are ignored (truncation), so `parseInt("3abc") = 3`
and `parseInt("2.5") = 2`. -/
def parseIntJS (s : String) : Option Int :=
  match s.data.dropWhile Char.isWhitespace with
  | '-' :: rest => (digitsPrefixVal rest).map (fun n => -(n : Int))
  | '+' :: rest => (digitsPrefixVal rest).map (fun n => (n : Int))
  | cs => (digitsPrefixVal cs).map (fun n => (n : Int))

/-- The JS `pages.push(i)` guarded by `!pages.includes(i)`. -/
def pushUnique (pages : List Int) (i : Int) : List Int :=
  if pages.contains i then pages else pages ++ [i]

/-- Consecutive integers starting at `s`, `n` of them. -/
def rangeListGo (s : Int) : Nat → List Int
  | 0 => []
  | n + 1 => s :: rangeListGo (s + 1) n

/-- The integers `start, start+1, …, end` visited by the range loop
`for (let i = start; i <= end; i++)`; empty when `end < start`. -/
def rangeList (s e : Int) : List Int :=
  rangeListGo s (e + 1 - s).toNat

/-- The first two dash-separated fragments of a token, each trimmed and put
through `parseInt`; models the destructuring
`const [start, end] = trimmed.split('-').map(n => parseInt(n.trim(), 10))`
(a missing fragment behaves like `NaN`, i.e. `none`). -/
def rangeBounds (t : String) : Option Int × Option Int :=
  match (jsSplit t '-').map (fun n => parseIntJS (jsTrim n)) with
  | b0 :: b1 :: _ => (b0, b1)
  | [b0] => (b0, none)
  | [] => (none, none)

/-- The range branch of `parsePageNumbers`, applied to an already-trimmed
token containing a dash. -/
def processRangeToken (pages : List Int) (trimmed : String) :
    Except String (List Int) :=
  match rangeBounds trimmed with
  | (some s, some e) =>
    if s > e || s < 1 then
      .error ("Invalid page range: " ++ trimmed)
    else
      .ok ((rangeList s e).foldl pushUnique pages)
  | _ => .error ("Invalid page range: " ++ trimmed)

/-- The single-page branch of `parsePageNumbers`, applied to an
already-trimmed token without a dash. -/
def processSingleToken (pages : List Int) (trimmed : String) :
    Except String (List Int) :=
  match parseIntJS trimmed with
  | some pageNum =>
    if pageNum < 1 then .error ("Invalid page number: " ++ trimmed)
    else .ok (pushUnique pages pageNum)
  | none => .error ("Invalid page number: " ++ trimmed)

/-- Processing of one comma-separated token of the pages parameter. -/
def processToken (pages : List Int) (part : String) :
    Except String (List Int) :=
  let trimmed := jsTrim part
  if jsContains trimmed '-' then processRangeToken pages trimmed
  else processSingleToken pages trimmed

/-- The `for (const part of parts)` loop of `parsePageNumbers`. -/
def parseLoop : List String → List Int → Except String (List Int)
  | [], pages => .ok pages
  | part :: rest, pages =>
    match processToken pages part with
    | .error e => .error e
    | .ok pages' => parseLoop rest pages'

/-- Embedding of `PdfConvert.parsePageNumbers`: split the parameter on
commas, accumulate pages (ranges and singles, deduplicated by
`includes`), and return the accumulated list sorted ascending. -/
def parsePageNumbers (pagesParam : String) : Except String (List Int) :=
  match parseLoop (jsSplit pagesParam ',') [] with
  | .error e => .error e
  | .ok pages => .ok (List.insertionSort (fun a b => a ≤ b) pages)

/-- Base64 value of one character of the standard alphabet, `none` for any
other character (Node's lenient decoder skips those). -/
def base64Val (c : Char) : Option Nat :=
  if 'A' ≤ c ∧ c ≤ 'Z' then some (c.toNat - 65)
  else if 'a' ≤ c ∧ c ≤ 'z' then some (c.toNat - 97 + 26)
  else if '0' ≤ c ∧ c ≤ '9' then some (c.toNat - 48 + 52)
  else if c = '+' then some 62
  else if c = '/' then some 63
  else none

/-- Decode groups of base64 sextets into bytes (the complete-group core of
Node's base64 decoding). -/
def base64Groups : List Nat → List Nat
  | a :: b :: c :: d :: rest =>
    (a * 4 + b / 16) :: (b % 16 * 16 + c / 4) :: (c % 4 * 64 + d) ::
      base64Groups rest
  | [a, b, c] => [a * 4 + b / 16, b % 16 * 16 + c / 4]
  | [a, b] => [a * 4 + b / 16]
  | _ => []

/-- JavaScript `Buffer.from(s, 'base64')`: lenient decoding that skips any
character outside the base64 alphabet and never fails; malformed input
yields garbage bytes rather than an error. -/
def base64DecodeJS (s : String) : List Nat :=
  base64Groups (s.data.filterMap base64Val)

/-- Character of the standard base64 alphabet at a sextet value. -/
def b64Char (n : Nat) : Char :=
  (("ABCDEFGHIJKLMNOPQRSTUVWXYZabcdefghijklmnopqrstuvwxyz" ++
    "0123456789+/").data.getD n 'A')

/-- JavaScript `buf.toString('base64')`: standard padded base64 encoding. -/
def base64EncodeJS : List Nat → String
  | [] => ""
  | [a] =>
    String.mk [b64Char (a / 4), b64Char (a % 4 * 16), '=', '=']
  | [a, b] =>
    String.mk [b64Char (a / 4), b64Char (a % 4 * 16 + b / 16),
      b64Char (b % 16 * 4), '=']
  | a :: b :: c :: rest =>
    String.mk [b64Char (a / 4), b64Char (a % 4 * 16 + b / 16),
      b64Char (b % 16 * 4 + c / 64), b64Char (c % 64)] ++
      base64EncodeJS rest

/-- Decimal rendering of an optional page number; `none` plays the role of
JavaScript `undefined` inside a template literal. -/
def showPage : Option Int → String
  | some n => toString n
  | none => "undefined"

namespace InMemNode

/-- One converted page as assembled by the in-memory node's `execute`
(the object literal at the heart of `outputImages.map`). -/
structure ConvImage where
  data : List Nat
  mimeType : String
  fileName : String
  fileExtension : String
  pageNumber : Option Int
deriving DecidableEq, Repr

/-- Structured-field values that the node stores in an output item's
`json` section. -/
inductive JVal where
  | str : String → JVal
  | int : Int → JVal
  | images : List ConvImage → JVal
deriving DecidableEq, Repr

/-- One binary attachment of an output item. -/
structure BinData where
  data : String
  mimeType : String
  fileName : String
  fileExtension : String
deriving DecidableEq, Repr

/-- One output item pushed onto `returnData`: structured fields, binary
attachments, whether the record carries an `error` property, and its
`pairedItem` back-reference when present. -/
structure OutRec where
  json : List (String × JVal)
  binary : List (String × BinData)
  hasError : Bool
  pairedItem : Option Nat
deriving DecidableEq, Repr

/-- One input item together with the per-item parameter values the node
reads for it (`getNodeParameter` is item-indexed, so parameters travel
with the item here). -/
structure InputItem where
  json : List (String × JVal)
  binary : List (String × List Nat)
  inputType : String
  binaryPropertyName : String
  base64Data : String
  outputFormat : String
  scale : Int
  pagesParam : String
  outputPropertyName : String

/-- External collaborators of `execute`: the `pdf2img.convert` backend
(bytes and optional page list to per-page image buffers, or a failure
message) and the host's continue-on-fail flag. -/
structure Env where
  convert : List Nat → Option (List Int) → Except String (List (List Nat))
  continueOnFail : Bool

/-- JavaScript object-spread update `{ ...l, k: v }`: replace the value of
an existing key in place, otherwise append the new key at the end. -/
def jsonSet (l : List (String × JVal)) (k : String) (v : JVal) :
    List (String × JVal) :=
  if (l.map Prod.fst).contains k then
    l.map (fun p => if p.1 = k then (k, v) else p)
  else l ++ [(k, v)]

/-- Fold `jsonSet` over a list of updates (spread with several new keys). -/
def jsonMerge (l : List (String × JVal)) (updates : List (String × JVal)) :
    List (String × JVal) :=
  updates.foldl (fun acc p => jsonSet acc p.1 p.2) l

/-- Assignment `outputItem.binary[key] = value` on the binary section. -/
def binSet (l : List (String × BinData)) (k : String) (v : BinData) :
    List (String × BinData) :=
  if (l.map Prod.fst).contains k then
    l.map (fun p => if p.1 = k then (k, v) else p)
  else l ++ [(k, v)]

/-- Source resolution of `execute` (the `if (inputType === …)` chain):
binary mode asserts the named attachment, base64 mode requires a non-empty
string and decodes it leniently, anything else is an unknown input type. -/
def resolveSource (item : InputItem) : Except String (List Nat) :=
  if item.inputType = "binaryData" then
    match item.binary.lookup item.binaryPropertyName with
    | some buf => .ok buf
    | none =>
      .error ("No binary data property \"" ++ item.binaryPropertyName ++
        "\" exists on item!")
  else if item.inputType = "base64" then
    if item.base64Data = "" then
      .error "Base64 data is required when input type is base64"
    else .ok (base64DecodeJS item.base64Data)
  else .error ("Unknown input type: " ++ item.inputType)

/-- The pages step of `execute`: the parser runs only when the trimmed
pages parameter is non-empty, otherwise no explicit selection is made. -/
def parsePagesStep (pagesParam : String) :
    Except String (Option (List Int)) :=
  if jsTrim pagesParam ≠ "" then
    match parsePageNumbers pagesParam with
    | .error e => .error e
    | .ok l => .ok (some l)
  else .ok none

/-- Page number given to the image at `index` by `outputImages.map`:
`pageNumbers ? pageNumbers[index] : index + 1` (out-of-range access models
JavaScript `undefined` as `none`). -/
def assignPage (pageNumbers : Option (List Int)) (index : Nat) :
    Option Int :=
  match pageNumbers with
  | some pn => pn[index]?
  | none => some ((index : Int) + 1)

/-- The `outputImages.map((imageData, index) => …)` body: wrap each raw
buffer into a `ConvImage` with its page number, MIME type and file name. -/
def buildImages (fmt : String) (pageNumbers : Option (List Int)) :
    Nat → List (List Nat) → List ConvImage
  | _, [] => []
  | index, imageData :: rest =>
    let pageNumber := assignPage pageNumbers index
    { data := imageData,
      mimeType := if fmt = "png" then "image/png" else "image/jpeg",
      fileName := "page_" ++ showPage pageNumber ++ "." ++ fmt,
      fileExtension := fmt,
      pageNumber := pageNumber } :: buildImages fmt pageNumbers (index + 1) rest

/-- Text appended by the node to every conversion failure message. -/
def canvasHint : String :=
  ". This might be due to missing Canvas dependencies. Please ensure the " ++
  "n8n container has the required system dependencies installed."

/-- The inner `try { … convert … } catch (conversionError) { … }` block of
`execute`: on success assemble the output item (structured summary plus one
binary attachment per image); on failure either emit an error record
(continue mode) or abort with the item's index (fail-fast). -/
def convertStep (env : Env) (item : InputItem) (itemIndex : Nat)
    (pdfBuffer : List Nat) (pageNumbers : Option (List Int)) :
    Except (Nat × String) OutRec :=
  match env.convert pdfBuffer pageNumbers with
  | .ok outputImages =>
    let images := buildImages item.outputFormat pageNumbers 0 outputImages
    .ok
      { json := jsonMerge item.json
          [(item.outputPropertyName, .images images),
           ("totalPages", .int images.length),
           ("outputFormat", .str item.outputFormat),
           ("scale", .int item.scale)],
        binary := images.foldl
          (fun b image =>
            binSet b (item.outputPropertyName ++ "_page_" ++
                showPage image.pageNumber)
              { data := base64EncodeJS image.data,
                mimeType := image.mimeType,
                fileName := image.fileName,
                fileExtension := image.fileExtension }) [],
        hasError := false,
        pairedItem := none }
  | .error msg =>
    let errorMessage := "PDF conversion failed: " ++ msg ++ canvasHint
    if env.continueOnFail then
      .ok
        { json := jsonMerge item.json
            [("error", .str errorMessage), ("originalError", .str msg)],
          binary := [],
          hasError := true,
          pairedItem := some itemIndex }
    else .error (itemIndex, errorMessage)

/-- Processing of one input item (the body of the `for` loop of `execute`):
the outer `try { … } catch (error)` handles resolution and parsing faults;
conversion faults are handled inside `convertStep`, whose fail-fast error is
re-raised with the same item index by the outer handler. -/
def processItem (env : Env) (item : InputItem) (itemIndex : Nat) :
    Except (Nat × String) OutRec :=
  match resolveSource item with
  | .error msg =>
    if env.continueOnFail then
      .ok { json := jsonSet item.json "error" (.str msg), binary := [],
            hasError := true, pairedItem := some itemIndex }
    else .error (itemIndex, msg)
  | .ok pdfBuffer =>
    match parsePagesStep item.pagesParam with
    | .error msg =>
      if env.continueOnFail then
        .ok { json := jsonSet item.json "error" (.str msg), binary := [],
              hasError := true, pairedItem := some itemIndex }
      else .error (itemIndex, msg)
    | .ok pageNumbers => convertStep env item itemIndex pdfBuffer pageNumbers

/-- The item loop of `execute`, carrying the running item index. -/
def executeGo (env : Env) : Nat → List InputItem →
    Except (Nat × String) (List OutRec)
  | _, [] => .ok []
  | idx, item :: rest =>
    match processItem env item idx with
    | .error e => .error e
    | .ok r =>
      match executeGo env (idx + 1) rest with
      | .error e => .error e
      | .ok rs => .ok (r :: rs)

/-- Embedding of the in-memory node's `execute`: process the batch in input
order; a fail-fast fault aborts the whole run with the failing item's index
and produces no output. -/
def execute (env : Env) (items : List InputItem) :
    Except (Nat × String) (List OutRec) :=
  executeGo env 0 items

end InMemNode

namespace FileNode

/-- One entry of the array returned by `convert.bulk(-1)`: pdf2pic reports
an output path and a page number, either of which may be absent. -/
structure P2Result where
  path : Option String
  page : Option Int
deriving DecidableEq, Repr

/-- One converted page as assembled by the file-based node. -/
structure FImage where
  data : List Nat
  mimeType : String
  fileName : String
  pageNumber : Int
deriving DecidableEq, Repr

/-- Structured-field values of the file-based node: the original item's
fields plus the summary object `{totalPages, format, density, pdfSize}`
stored under the output property. -/
inductive FVal where
  | str : String → FVal
  | int : Int → FVal
  | summary : (totalPages : Int) → (format : String) → (density : Int) →
      (pdfSize : Int) → FVal
deriving DecidableEq, Repr

/-- One binary attachment of the file-based node's output. -/
structure FBin where
  data : String
  mimeType : String
  fileName : String
  fileExtension : String
deriving DecidableEq, Repr

/-- One output record of the file-based node. -/
structure FOut where
  json : List (String × FVal)
  binary : List (String × FBin)
deriving DecidableEq, Repr

/-- External collaborators of one conversion call: the outcome of
`convert.bulk(-1)` and the byte contents (or failure) of `readFile` at each
path.  The filesystem itself is threaded explicitly as a list of existing
paths. -/
structure FEnv where
  bulkResults : Except String (List P2Result)
  readFile : String → Except String (List Nat)

/-- JavaScript `result.page || 1`: `undefined` and the falsy page number
`0` both collapse to `1`. -/
def jsOrOne : Option Int → Int
  | some n => if n = 0 then 1 else n
  | none => 1

/-- The `for (const result of results)` loop: results without a path are
skipped entirely; for each result with a path the image file is read back
(a read failure aborts the loop and propagates) and then unlinked
(deletion failures are ignored; deletion is modelled as removal from the
path list). -/
def pagesLoop (env : FEnv) (format : String) :
    List P2Result → List String → Except String (List FImage) × List String
  | [], fs => (.ok [], fs)
  | r :: rest, fs =>
    match r.path with
    | none => pagesLoop env format rest fs
    | some p =>
      match env.readFile p with
      | .error e => (.error e, fs)
      | .ok imageBuffer =>
        let next := pagesLoop env format rest (fs.erase p)
        (next.1.map (fun imgs =>
          { data := imageBuffer,
            mimeType := if format = "png" then "image/png"
              else "image/jpeg",
            fileName := "page_" ++ showPage r.page ++ "." ++ format,
            pageNumber := jsOrOne r.page } :: imgs), next.2)

/-- Object-spread update on the file node's structured fields. -/
def fjsonSet (l : List (String × FVal)) (k : String) (v : FVal) :
    List (String × FVal) :=
  if (l.map Prod.fst).contains k then
    l.map (fun p => if p.1 = k then (k, v) else p)
  else l ++ [(k, v)]

/-- Assembly of the file node's output item from the collected images. -/
def assembleOut (itemJson : List (String × FVal)) (outputProperty : String)
    (format : String) (density : Int) (pdfSize : Int)
    (images : List FImage) : FOut :=
  { json := fjsonSet itemJson outputProperty
      (.summary images.length format density pdfSize),
    binary := images.foldl
      (fun b image =>
        let binaryKey := outputProperty ++ "_page_" ++
          toString image.pageNumber
        if (b.map Prod.fst).contains binaryKey then
          b.map (fun p => if p.1 = binaryKey then
            (binaryKey, { data := base64EncodeJS image.data,
                          mimeType := image.mimeType,
                          fileName := image.fileName,
                          fileExtension := format }) else p)
        else b ++ [(binaryKey,
          { data := base64EncodeJS image.data,
            mimeType := image.mimeType,
            fileName := image.fileName,
            fileExtension := format })]) [] }

/-- Paths created on disk during one conversion call: the temporary PDF,
and — when `convert.bulk` succeeds — one file per result that reports a
path (the external tool wrote those files). -/
def createdPaths (env : FEnv) (tempPdfPath : String) : List String :=
  tempPdfPath ::
    (match env.bulkResults with
     | .ok results => results.filterMap P2Result.path
     | .error _ => [])

/-- Embedding of one conversion call of the file-based `execute` (from
`writeFile(tempPdfPath, …)` through the `finally` block): returns the
call's outcome together with the final filesystem state.  The `finally`
block removes only the temporary PDF; page-image files are removed one by
one inside `pagesLoop`. -/
def convertCall (env : FEnv) (itemJson : List (String × FVal))
    (outputProperty : String) (format : String) (density : Int)
    (pdfSize : Int) (tempPdfPath : String) (fs0 : List String) :
    Except String FOut × List String :=
  let fs1 := tempPdfPath :: fs0
  let step : Except String FOut × List String :=
    match env.bulkResults with
    | .error e => (.error e, fs1)
    | .ok results =>
      let loopRes := pagesLoop env format results
        (fs1 ++ results.filterMap P2Result.path)
      (loopRes.1.map (fun images =>
        assembleOut itemJson outputProperty format density pdfSize images),
       loopRes.2)
  (step.1, step.2.erase tempPdfPath)

/-- Concrete collaborator for the cleanup scenario: the backend reports two
page images, reading the first succeeds and reading the second fails. -/
def demoFailEnv : FEnv :=
  { bulkResults := .ok [⟨some "img1", some 1⟩, ⟨some "img2", some 2⟩],
    readFile := fun p => if p = "img1" then .ok [7] else .error "EIO: read error" }

/-- Concrete collaborator for the skipped-result scenario: three backend
results, the middle one without an output path; all reads succeed. -/
def demoSkipEnv : FEnv :=
  { bulkResults := .ok [⟨some "a", some 1⟩, ⟨none, some 2⟩, ⟨some "b", none⟩],
    readFile := fun _ => .ok [1] }

end FileNode

namespace InMemNode

/-- Concrete conversion backend for the failure-policy scenario: fails on
the byte buffer `[0]` (the lenient decoding of the base64 string `"AA=="`),
succeeds with one image elsewhere. -/
def demoConvert :
    List Nat → Option (List Int) → Except String (List (List Nat)) :=
  fun buf _ => if buf = [0] then .error "bad pdf" else .ok [[9]]

/-- First batch item: a well-formed binary-mode item. -/
def demoItem1 : InputItem :=
  ⟨[("k", JVal.str "v")], [("data", [1])], "binaryData", "data", "", "png",
    2, "", "images"⟩

/-- Second batch item: base64 mode with an unreadable (non-empty,
malformed-content) string whose decoded bytes make conversion fail. -/
def demoItem2 : InputItem :=
  ⟨[("k", JVal.str "w")], [], "base64", "data", "AA==", "png", 2, "",
    "images"⟩

/-- Third batch item: another well-formed binary-mode item. -/
def demoItem3 : InputItem :=
  ⟨[], [("data", [2])], "binaryData", "data", "", "png", 2, "", "images"⟩

end InMemNode

theorem mem_pushUnique {pages : List Int} {i x : Int} :
    x ∈ pushUnique pages i ↔ x ∈ pages ∨ x = i := by
  unfold pushUnique
  by_cases h : i ∈ pages
  · rw [if_pos (by simpa using h)]
    constructor
    · exact Or.inl
    · rintro (hx | rfl)
      · exact hx
      · exact h
  · rw [if_neg (by simpa using h)]
    simp

theorem pushUnique_nodup {pages : List Int} {i : Int} (h : pages.Nodup) :
    (pushUnique pages i).Nodup := by
  unfold pushUnique
  by_cases hc : i ∈ pages
  · rw [if_pos (by simpa using hc)]
    exact h
  · rw [if_neg (by simpa using hc)]
    simp [List.nodup_append, h, hc]

theorem mem_foldl_pushUnique {x : Int} :
    ∀ (l : List Int) (pages : List Int),
      x ∈ l.foldl pushUnique pages ↔ x ∈ pages ∨ x ∈ l := by
  intro l
  induction l with
  | nil => simp
  | cons a as ih =>
    intro pages
    rw [List.foldl_cons, ih, mem_pushUnique]
    simp only [List.mem_cons]
    tauto

theorem foldl_pushUnique_nodup :
    ∀ (l : List Int) (pages : List Int), pages.Nodup →
      (l.foldl pushUnique pages).Nodup := by
  intro l
  induction l with
  | nil => intro pages h; simpa using h
  | cons a as ih =>
    intro pages h
    rw [List.foldl_cons]
    exact ih _ (pushUnique_nodup h)

theorem mem_rangeListGo {x : Int} :
    ∀ (n : Nat) (s : Int), x ∈ rangeListGo s n ↔ s ≤ x ∧ x < s + n := by
  intro n
  induction n with
  | zero => intro s; simp [rangeListGo]
  | succ m ih =>
    intro s
    rw [rangeListGo, List.mem_cons, ih]
    omega

theorem mem_rangeList {s e x : Int} :
    x ∈ rangeList s e ↔ s ≤ x ∧ x ≤ e := by
  rw [rangeList, mem_rangeListGo]
  omega

theorem processRangeToken_ok_shape {pages l : List Int} {t : String}
    (h : processRangeToken pages t = .ok l) :
    ∃ s e, rangeBounds t = (some s, some e) ∧ s ≤ e ∧ 1 ≤ s ∧
      l = (rangeList s e).foldl pushUnique pages := by
  unfold processRangeToken at h
  rcases hb : rangeBounds t with ⟨_ | s, _ | e⟩ <;> rw [hb] at h <;>
    dsimp only at h
  · exact absurd h (by simp)
  · exact absurd h (by simp)
  · exact absurd h (by simp)
  · by_cases hcond : s > e ∨ s < 1
    · rw [if_pos (by simpa using hcond)] at h
      exact absurd h (by simp)
    · rw [if_neg (by simpa using hcond)] at h
      exact ⟨s, e, rfl, by omega, by omega, by cases h; rfl⟩

theorem processSingleToken_ok_mem {pages l : List Int} {t : String}
    (h : processSingleToken pages t = .ok l) :
    ∃ p : Int, 1 ≤ p ∧ l = pushUnique pages p := by
  unfold processSingleToken at h
  rcases hp : parseIntJS t with _ | p <;> rw [hp] at h <;> dsimp only at h
  · exact absurd h (by simp)
  · by_cases hlt : p < 1
    · rw [if_pos hlt] at h
      exact absurd h (by simp)
    · rw [if_neg hlt] at h
      exact ⟨p, by omega, by cases h; rfl⟩

theorem processToken_inv {pages l : List Int} {part : String}
    (h : processToken pages part = .ok l)
    (hnd : pages.Nodup) (hlb : ∀ x ∈ pages, 1 ≤ x) :
    l.Nodup ∧ ∀ x ∈ l, 1 ≤ x := by
  unfold processToken at h
  by_cases hc : jsContains (jsTrim part) '-' = true
  · rw [if_pos hc] at h
    obtain ⟨s, e, _, _, hs1, hl⟩ := processRangeToken_ok_shape h
    subst hl
    refine ⟨foldl_pushUnique_nodup _ _ hnd, ?_⟩
    intro x hx
    rcases (mem_foldl_pushUnique _ _).mp hx with hx | hx
    · exact hlb x hx
    · have := mem_rangeList.mp hx
      omega
  · rw [if_neg hc] at h
    obtain ⟨p, hp1, hl⟩ := processSingleToken_ok_mem h
    subst hl
    refine ⟨pushUnique_nodup hnd, ?_⟩
    intro x hx
    rcases mem_pushUnique.mp hx with hx | rfl
    · exact hlb x hx
    · exact hp1

theorem parseLoop_inv :
    ∀ (parts : List String) (pages l : List Int),
      parseLoop parts pages = .ok l →
      pages.Nodup → (∀ x ∈ pages, 1 ≤ x) →
      l.Nodup ∧ ∀ x ∈ l, 1 ≤ x := by
  intro parts
  induction parts with
  | nil =>
    intro pages l h hnd hlb
    cases h
    exact ⟨hnd, hlb⟩
  | cons part rest ih =>
    intro pages l h hnd hlb
    unfold parseLoop at h
    rcases hp : processToken pages part with e | pages'
    · rw [hp] at h; exact absurd h (by simp)
    · rw [hp] at h
      obtain ⟨hnd', hlb'⟩ := processToken_inv hp hnd hlb
      exact ih pages' l h hnd' hlb'

/-- Claim C2 — on every successful parse the returned page list is strictly
ascending, duplicate-free, and all of its elements are at least 1. -/
theorem parsePageNumbers_ok_sorted (s : String) (l : List Int)
    (h : parsePageNumbers s = .ok l) :
    List.Sorted (· < ·) l ∧ l.Nodup ∧ ∀ x ∈ l, 1 ≤ x := by
  unfold parsePageNumbers at h
  rcases hp : parseLoop (jsSplit s ',') [] with e | pages
  · rw [hp] at h; exact absurd h (by simp)
  · rw [hp] at h
    have hl : l = List.insertionSort (fun a b => a ≤ b) pages := by
      cases h; rfl
    obtain ⟨hnd, hlb⟩ := parseLoop_inv _ _ _ hp (by simp) (by simp)
    subst hl
    have hperm := List.perm_insertionSort (fun a b => a ≤ b) pages
    have hndSorted : (List.insertionSort (fun a b => a ≤ b) pages).Nodup :=
      hperm.nodup_iff.mpr hnd
    have hsortedLe : List.Sorted (fun a b : Int => a ≤ b)
        (List.insertionSort (fun a b => a ≤ b) pages) :=
      List.sorted_insertionSort _ pages
    refine ⟨List.Sorted.lt_of_le hsortedLe hndSorted, hndSorted, ?_⟩
    intro x hx
    exact hlb x (hperm.mem_iff.mp hx)

/-- Claim C2 witness at the concrete expression `"1,3-5,7"`. -/
theorem parsePageNumbers_ok_sorted_witness :
    List.Sorted (· < ·) ([1, 3, 4, 5, 7] : List Int) ∧
      ([1, 3, 4, 5, 7] : List Int).Nodup ∧
      ∀ x ∈ ([1, 3, 4, 5, 7] : List Int), 1 ≤ x :=
  parsePageNumbers_ok_sorted "1,3-5,7" [1, 3, 4, 5, 7] rfl

/-- Claim C1 — the parser meets the spec's concrete examples: the three
positive examples, the dedup example, and the three failing expressions
(each rejected with an invalid-page error). -/
theorem parsePageNumbers_examples :
    parsePageNumbers "1,2,3" = .ok [1, 2, 3] ∧
    parsePageNumbers "1-5" = .ok [1, 2, 3, 4, 5] ∧
    parsePageNumbers "1,3-5,7" = .ok [1, 3, 4, 5, 7] ∧
    parsePageNumbers "1,1,2-3,3" = .ok [1, 2, 3] ∧
    parsePageNumbers "5-2" = .error "Invalid page range: 5-2" ∧
    parsePageNumbers "0-3" = .error "Invalid page range: 0-3" ∧
    parsePageNumbers "abc" = .error "Invalid page number: abc" :=
  ⟨rfl, rfl, rfl, rfl, rfl, rfl, rfl⟩

/-- Claim C6 — a token containing a dash is handled by the range branch,
which fails exactly when a bound is missing or unparsable, or when
`start > end` or `start < 1`; otherwise it contributes every integer from
`start` to `end` inclusive to the accumulated pages. -/
theorem processToken_range_spec (pages : List Int) (part : String)
    (hdash : jsContains (jsTrim part) '-' = true) :
    processToken pages part = processRangeToken pages (jsTrim part) ∧
    ((∃ msg, processRangeToken pages (jsTrim part) = .error msg) ↔
      (rangeBounds (jsTrim part)).1 = none ∨
      (rangeBounds (jsTrim part)).2 = none ∨
      ∃ s e, rangeBounds (jsTrim part) = (some s, some e) ∧
        (e < s ∨ s < 1)) ∧
    (∀ s e, rangeBounds (jsTrim part) = (some s, some e) → s ≤ e → 1 ≤ s →
      ∃ l, processToken pages part = .ok l ∧
        ∀ k : Int, k ∈ l ↔ k ∈ pages ∨ (s ≤ k ∧ k ≤ e)) := by
  have h1 : processToken pages part = processRangeToken pages (jsTrim part) := by
    simp only [processToken]
    rw [if_pos hdash]
  refine ⟨h1, ?_, ?_⟩
  · unfold processRangeToken
    rcases hb : rangeBounds (jsTrim part) with ⟨_ | s, _ | e⟩ <;> dsimp only
    · simp
    · simp
    · simp
    · by_cases hcond : s > e ∨ s < 1
      · rw [if_pos (by simpa using hcond)]
        constructor
        · intro _
          exact Or.inr (Or.inr ⟨s, e, rfl, by omega⟩)
        · intro _
          exact ⟨_, rfl⟩
      · rw [if_neg (by simpa using hcond)]
        constructor
        · rintro ⟨msg, hmsg⟩
          exact absurd hmsg (by simp)
        · rintro (h | h | ⟨s2, e2, heq, hlt⟩)
          · exact Option.noConfusion h
          · exact Option.noConfusion h
          · simp only [Prod.mk.injEq, Option.some.injEq] at heq
            omega
  · intro s e hb hse hs1
    rw [h1]
    unfold processRangeToken
    rw [hb]
    dsimp only
    rw [if_neg (by simp only [Bool.or_eq_true, decide_eq_true_eq]; omega)]
    exact ⟨_, rfl, fun k => by rw [mem_foldl_pushUnique, mem_rangeList]⟩

/-- Claim C6 witness at the concrete token `" 2-4 "` against accumulated
pages `[10]`. -/
theorem processToken_range_spec_witness :
    ∃ l, processToken [10] " 2-4 " = .ok l ∧
      ∀ k : Int, k ∈ l ↔ k ∈ ([10] : List Int) ∨ (2 ≤ k ∧ k ≤ 4) :=
  (processToken_range_spec [10] " 2-4 " (by decide)).2.2 2 4 (by decide)
    (by decide) (by decide)

theorem splitCharList_ne_nil (sep : Char) :
    ∀ cs, splitCharList sep cs ≠ [] := by
  intro cs
  induction cs with
  | nil => simp [splitCharList]
  | cons c cs ih =>
    unfold splitCharList
    by_cases h : c = sep
    · simp [h]
    · rw [if_neg h]
      rcases hs : splitCharList sep cs with _ | ⟨t, ts⟩
      · exact absurd hs ih
      · simp

theorem sep_not_mem_splitCharList (sep : Char) :
    ∀ cs f, f ∈ splitCharList sep cs → sep ∉ f := by
  intro cs
  induction cs with
  | nil =>
    intro f hf
    simp only [splitCharList, List.mem_singleton] at hf
    simp [hf]
  | cons c cs ih =>
    intro f hf
    unfold splitCharList at hf
    by_cases h : c = sep
    · rw [if_pos h] at hf
      rcases List.mem_cons.mp hf with rfl | hf
      · simp
      · exact ih f hf
    · rw [if_neg h] at hf
      rcases hs : splitCharList sep cs with _ | ⟨t, ts⟩
      · exact absurd hs (splitCharList_ne_nil sep cs)
      · rw [hs] at hf
        rcases List.mem_cons.mp hf with rfl | hf
        · intro hmem
          rcases List.mem_cons.mp hmem with rfl | hmem
          · exact h rfl
          · exact ih t (hs ▸ List.mem_cons_self t ts) hmem
        · exact ih f (hs ▸ List.mem_cons_of_mem t hf)

theorem splitCharList_of_not_mem (sep : Char) :
    ∀ cs, sep ∉ cs → splitCharList sep cs = [cs] := by
  intro cs
  induction cs with
  | nil => intro _; rfl
  | cons c cs ih =>
    intro h
    have hc : c ≠ sep := fun hcs => h (hcs ▸ List.mem_cons_self c cs)
    have hcs : sep ∉ cs := fun hm => h (List.mem_cons_of_mem c hm)
    unfold splitCharList
    rw [if_neg hc, ih hcs]

theorem splitCharList_append (sep : Char) :
    ∀ a b, sep ∉ a →
      splitCharList sep (a ++ sep :: b) = a :: splitCharList sep b := by
  intro a
  induction a with
  | nil => intro b _; simp [splitCharList]
  | cons c a ih =>
    intro b h
    have hc : c ≠ sep := fun hcs => h (hcs ▸ List.mem_cons_self c a)
    have ha : sep ∉ a := fun hm => h (List.mem_cons_of_mem c hm)
    simp only [List.cons_append, splitCharList, if_neg hc, List.append_eq,
      ih b ha]

/-- Claim C9 counterexample — a token with two dashes on which the parser
does fail: the first two dash-separated parts of `"5-2-3"` form the
invalid range `5 > 2`, so the claim's "the parser does not fail" is false
for this multi-dash token. -/
theorem parsePageNumbers_multiDash_fails :
    parsePageNumbers "5-2-3" = .error "Invalid page range: 5-2-3" := rfl

/-- Claim C9 amended — for a token splitting into three or more
dash-separated parts, the parser uses only the first two parts as the
range bounds and ignores the remaining parts entirely: the bounds equal
those of the token rebuilt from just the first two parts, and the range
branch produces the same outcome (up to the error text, which echoes the
whole token); it still fails when those first two bounds are invalid. In
particular `parse("1-2-3")` succeeds with `[1, 2]`. -/
theorem processRangeToken_ignores_extra_parts (pages : List Int)
    (t : String) (p0 p1 : List Char) (rest : List (List Char))
    (_hrest : rest ≠ [])
    (hsplit : splitCharList '-' t.data = p0 :: p1 :: rest) :
    parsePageNumbers "1-2-3" = .ok [1, 2] ∧
    rangeBounds t = (parseIntJS (jsTrim (String.mk p0)),
      parseIntJS (jsTrim (String.mk p1))) ∧
    (processRangeToken pages t).toOption =
      (processRangeToken pages (String.mk (p0 ++ '-' :: p1))).toOption := by
  have hmem0 : ('-' : Char) ∉ p0 :=
    sep_not_mem_splitCharList '-' t.data p0 (hsplit ▸ List.mem_cons_self _ _)
  have hmem1 : ('-' : Char) ∉ p1 :=
    sep_not_mem_splitCharList '-' t.data p1
      (hsplit ▸ List.mem_cons_of_mem _ (List.mem_cons_self _ _))
  have hb : rangeBounds t = (parseIntJS (jsTrim (String.mk p0)),
      parseIntJS (jsTrim (String.mk p1))) := by
    unfold rangeBounds jsSplit
    rw [hsplit]
    rfl
  have hb2 : rangeBounds (String.mk (p0 ++ '-' :: p1)) =
      (parseIntJS (jsTrim (String.mk p0)),
        parseIntJS (jsTrim (String.mk p1))) := by
    unfold rangeBounds jsSplit
    show (match ((splitCharList '-' (p0 ++ '-' :: p1)).map String.mk).map
        (fun n => parseIntJS (jsTrim n)) with
      | b0 :: b1 :: _ => (b0, b1)
      | [b0] => (b0, none)
      | [] => (none, none)) = _
    rw [splitCharList_append '-' p0 p1 hmem0,
      splitCharList_of_not_mem '-' p1 hmem1]
    rfl
  refine ⟨rfl, hb, ?_⟩
  unfold processRangeToken
  rw [hb, hb2]
  rcases parseIntJS (jsTrim (String.mk p0)) with _ | s <;>
    rcases parseIntJS (jsTrim (String.mk p1)) with _ | e <;> dsimp only
  · rfl
  · rfl
  · rfl
  · by_cases hcond : s > e ∨ s < 1
    · rw [if_pos (by simpa using hcond), if_pos (by simpa using hcond)]
      rfl
    · rw [if_neg (by simpa using hcond), if_neg (by simpa using hcond)]

/-- Claim C9 amended witness at the concrete token `"9-4-7"`. -/
theorem processRangeToken_ignores_extra_parts_witness :
    parsePageNumbers "1-2-3" = .ok [1, 2] ∧
    rangeBounds "9-4-7" = (parseIntJS (jsTrim (String.mk ['9'])),
      parseIntJS (jsTrim (String.mk ['4']))) ∧
    (processRangeToken [] "9-4-7").toOption =
      (processRangeToken [] (String.mk (['9'] ++ '-' :: ['4']))).toOption :=
  processRangeToken_ignores_extra_parts [] "9-4-7" ['9'] ['4'] [['7']]
    (by decide) (by decide)

/-- Claim C8 — integer parsing truncates at the first non-digit, so tokens
with trailing garbage are accepted: `"3abc"` parses to `[3]`, `"2.5"` to
`[2]`, and the same truncation applies to range bounds (`"1x-3y"` gives
`[1, 2, 3]`). -/
theorem parsePageNumbers_truncation :
    parsePageNumbers "3abc" = .ok [3] ∧
    parsePageNumbers "2.5" = .ok [2] ∧
    parseIntJS "3abc" = some 3 ∧
    parseIntJS "2.5" = some 2 ∧
    parsePageNumbers "1x-3y" = .ok [1, 2, 3] :=
  ⟨rfl, rfl, rfl, rfl, rfl⟩

namespace InMemNode

theorem buildImages_length (fmt : String) (pn : Option (List Int)) :
    ∀ (l : List (List Nat)) (idx : Nat),
      (buildImages fmt pn idx l).length = l.length := by
  intro l
  induction l with
  | nil => intro idx; rfl
  | cons d rest ih =>
    intro idx
    show (_ :: buildImages fmt pn (idx + 1) rest).length = _
    simp [ih]

theorem buildImages_get_pageNumber (fmt : String) (pn : Option (List Int)) :
    ∀ (l : List (List Nat)) (idx i : Nat)
      (h : i < (buildImages fmt pn idx l).length),
      ((buildImages fmt pn idx l).get ⟨i, h⟩).pageNumber =
        assignPage pn (idx + i) := by
  intro l
  induction l with
  | nil =>
    intro idx i h
    exact absurd h (by simp [buildImages])
  | cons d rest ih =>
    intro idx i h
    match i with
    | 0 => rfl
    | j + 1 =>
      have hj : j < (buildImages fmt pn (idx + 1) rest).length := by
        have := h
        simpa [buildImages] using this
      have := ih (idx + 1) j hj
      have hstep : ((buildImages fmt pn idx (d :: rest)).get
          ⟨j + 1, h⟩).pageNumber =
          ((buildImages fmt pn (idx + 1) rest).get ⟨j, hj⟩).pageNumber := rfl
      rw [hstep, this]
      have : idx + 1 + j = idx + (j + 1) := by omega
      rw [this]

/-- Claim C3 — the conversion adapter's image assembly: with no explicit
selection, a backend answer of `P` buffers yields exactly `P` images
numbered sequentially `1, 2, …, P`; with an explicit selection whose length
matches the backend answer, exactly `K` images, each tagged with its
requested page number; and a blank pages parameter means no explicit
selection is made (the parser is not invoked). -/
theorem conversion_count_invariant (fmt : String)
    (outputImages : List (List Nat)) (P : Nat) (pn : List Int) :
    (outputImages.length = P →
      (buildImages fmt none 0 outputImages).length = P ∧
      ∀ i (h : i < (buildImages fmt none 0 outputImages).length),
        ((buildImages fmt none 0 outputImages).get ⟨i, h⟩).pageNumber =
          some ((i : Int) + 1)) ∧
    (outputImages.length = pn.length →
      (buildImages fmt (some pn) 0 outputImages).length = pn.length ∧
      ∀ i (hi : i < pn.length)
        (h : i < (buildImages fmt (some pn) 0 outputImages).length),
        ((buildImages fmt (some pn) 0 outputImages).get ⟨i, h⟩).pageNumber =
          some (pn.get ⟨i, hi⟩)) ∧
    (∀ s : String, jsTrim s = "" → parsePagesStep s = .ok none) := by
  refine ⟨?_, ?_, ?_⟩
  · intro hP
    refine ⟨by rw [buildImages_length, hP], ?_⟩
    intro i h
    rw [buildImages_get_pageNumber]
    simp [assignPage]
  · intro hK
    refine ⟨by rw [buildImages_length, hK], ?_⟩
    intro i hi h
    rw [buildImages_get_pageNumber]
    simp [assignPage, List.getElem?_eq_getElem hi]
  · intro s hs
    unfold parsePagesStep
    rw [if_neg (by simp [hs])]

/-- Claim C3 witness: three backend buffers with no selection give three
sequentially numbered images; with selection `[2, 5, 9]` the second image
carries page number 5; a whitespace pages parameter yields no selection. -/
theorem conversion_count_invariant_witness :
    (buildImages "png" none 0 [[1], [2], [3]]).length = 3 ∧
    ((buildImages "png" none 0 [[1], [2], [3]]).get
      ⟨1, by decide⟩).pageNumber = some 2 ∧
    (buildImages "jpg" (some [2, 5, 9]) 0 [[1], [2], [3]]).length = 3 ∧
    ((buildImages "jpg" (some [2, 5, 9]) 0 [[1], [2], [3]]).get
      ⟨1, by decide⟩).pageNumber = some 5 ∧
    parsePagesStep "  " = .ok none := by
  obtain ⟨h1, h2, h3⟩ :=
    conversion_count_invariant "png" [[1], [2], [3]] 3 ([] : List Int)
  obtain ⟨h4, h5, h6⟩ :=
    conversion_count_invariant "jpg" [[1], [2], [3]] 3 [2, 5, 9]
  obtain ⟨hl1, hp1⟩ := h1 rfl
  obtain ⟨hl2, hp2⟩ := h5 rfl
  refine ⟨hl1, ?_, hl2, ?_, h6 "  " rfl⟩
  · simpa using hp1 1 (by decide)
  · simpa using hp2 1 (by decide) (by decide)

/-- Claim C7 — base64-mode source resolution fails exactly on an empty
base64 parameter, any unknown input type fails with an unsupported-mode
error, and a non-empty (possibly malformed) base64 string resolves
successfully to its lenient decoding. -/
theorem resolveSource_spec (item : InputItem) :
    (item.inputType = "base64" → item.base64Data = "" →
      resolveSource item =
        .error "Base64 data is required when input type is base64") ∧
    (item.inputType ≠ "binaryData" → item.inputType ≠ "base64" →
      resolveSource item =
        .error ("Unknown input type: " ++ item.inputType)) ∧
    (item.inputType = "base64" → item.base64Data ≠ "" →
      resolveSource item = .ok (base64DecodeJS item.base64Data)) := by
  refine ⟨?_, ?_, ?_⟩
  · intro h1 h2
    unfold resolveSource
    rw [if_neg (by rw [h1]; decide), if_pos h1, if_pos h2]
  · intro h1 h2
    unfold resolveSource
    rw [if_neg h1, if_neg h2]
  · intro h1 h2
    unfold resolveSource
    rw [if_neg (by rw [h1]; decide), if_pos h1, if_neg h2]

/-- Claim C7 witness at three concrete items: empty base64, unknown mode
`"weird"`, and the malformed but non-empty base64 string `"%%notbase64"`
(which decodes to garbage bytes rather than failing). -/
theorem resolveSource_spec_witness :
    resolveSource ⟨[], [], "base64", "data", "", "png", 2, "", "images"⟩ =
      .error "Base64 data is required when input type is base64" ∧
    resolveSource ⟨[], [], "weird", "data", "x", "png", 2, "", "images"⟩ =
      .error ("Unknown input type: " ++ "weird") ∧
    resolveSource
        ⟨[], [], "base64", "data", "%%notbase64", "png", 2, "", "images"⟩ =
      .ok (base64DecodeJS "%%notbase64") :=
  ⟨(resolveSource_spec _).1 rfl rfl,
   (resolveSource_spec _).2.1 (by decide) (by decide),
   (resolveSource_spec _).2.2 rfl (by decide)⟩

/-- Claim C4 — failure policy over a 3-item batch whose second item carries
a non-empty base64 string on which conversion fails (malformed base64
decodes to garbage bytes and surfaces as a conversion failure): in
continue mode the run yields exactly 3 output records in input order, the
middle one an error record carrying the original fields, the error
message, the underlying message and the item-index back-reference, the
outer two normal conversions; in fail-fast mode the same batch aborts with
the error tagged with item index 1 and produces no output. -/
theorem failure_policy_scenario
    (convert : List Nat → Option (List Int) → Except String (List (List Nat)))
    (i1 i2 i3 : InputItem) (buf1 buf3 : List Nat)
    (imgs1 imgs3 : List (List Nat)) (msg : String)
    (h1res : resolveSource i1 = .ok buf1)
    (h1p : jsTrim i1.pagesParam = "")
    (h1c : convert buf1 none = .ok imgs1)
    (h2t : i2.inputType = "base64") (h2d : i2.base64Data ≠ "")
    (h2p : jsTrim i2.pagesParam = "")
    (h2c : convert (base64DecodeJS i2.base64Data) none = .error msg)
    (h3res : resolveSource i3 = .ok buf3)
    (h3p : jsTrim i3.pagesParam = "")
    (h3c : convert buf3 none = .ok imgs3) :
    (∃ r1 r3 : OutRec,
      execute ⟨convert, true⟩ [i1, i2, i3] = .ok
        [r1,
         { json := jsonMerge i2.json
             [("error",
               .str ("PDF conversion failed: " ++ msg ++ canvasHint)),
              ("originalError", .str msg)],
           binary := [],
           hasError := true,
           pairedItem := some 1 },
         r3] ∧
      r1.hasError = false ∧ r1.pairedItem = none ∧
      r3.hasError = false ∧ r3.pairedItem = none) ∧
    execute ⟨convert, false⟩ [i1, i2, i3] =
      .error (1, "PDF conversion failed: " ++ msg ++ canvasHint) := by
  have hpp1 : parsePagesStep i1.pagesParam = .ok none := by
    unfold parsePagesStep
    rw [if_neg (by simp [h1p])]
  have hpp2 : parsePagesStep i2.pagesParam = .ok none := by
    unfold parsePagesStep
    rw [if_neg (by simp [h2p])]
  have hpp3 : parsePagesStep i3.pagesParam = .ok none := by
    unfold parsePagesStep
    rw [if_neg (by simp [h3p])]
  have h2res : resolveSource i2 = .ok (base64DecodeJS i2.base64Data) := by
    unfold resolveSource
    rw [if_neg (by rw [h2t]; decide), if_pos h2t, if_neg h2d]
  have step1 : ∀ b : Bool,
      ∃ r : OutRec, processItem ⟨convert, b⟩ i1 0 = .ok r ∧
        r.hasError = false ∧ r.pairedItem = none := by
    intro b
    have hstep : processItem ⟨convert, b⟩ i1 0 =
        convertStep ⟨convert, b⟩ i1 0 buf1 none := by
      unfold processItem
      rw [h1res]
      dsimp only
      rw [hpp1]
    have hconv : ∃ r, convertStep ⟨convert, b⟩ i1 0 buf1 none = .ok r ∧
        r.hasError = false ∧ r.pairedItem = none := by
      unfold convertStep
      dsimp only
      rw [h1c]
      exact ⟨_, rfl, rfl, rfl⟩
    obtain ⟨r, hr, ha, hb⟩ := hconv
    exact ⟨r, hstep ▸ hr, ha, hb⟩
  have step3 : ∀ b : Bool,
      ∃ r : OutRec, processItem ⟨convert, b⟩ i3 2 = .ok r ∧
        r.hasError = false ∧ r.pairedItem = none := by
    intro b
    have hstep : processItem ⟨convert, b⟩ i3 2 =
        convertStep ⟨convert, b⟩ i3 2 buf3 none := by
      unfold processItem
      rw [h3res]
      dsimp only
      rw [hpp3]
    have hconv : ∃ r, convertStep ⟨convert, b⟩ i3 2 buf3 none = .ok r ∧
        r.hasError = false ∧ r.pairedItem = none := by
      unfold convertStep
      dsimp only
      rw [h3c]
      exact ⟨_, rfl, rfl, rfl⟩
    obtain ⟨r, hr, ha, hb⟩ := hconv
    exact ⟨r, hstep ▸ hr, ha, hb⟩
  have step2 : ∀ b : Bool, processItem ⟨convert, b⟩ i2 1 =
      convertStep ⟨convert, b⟩ i2 1 (base64DecodeJS i2.base64Data) none := by
    intro b
    unfold processItem
    rw [h2res]
    dsimp only
    rw [hpp2]
  have step2T : processItem ⟨convert, true⟩ i2 1 = .ok
      { json := jsonMerge i2.json
          [("error", .str ("PDF conversion failed: " ++ msg ++ canvasHint)),
           ("originalError", .str msg)],
        binary := [],
        hasError := true,
        pairedItem := some 1 } := by
    rw [step2 true]
    unfold convertStep
    dsimp only
    rw [h2c]
    rfl
  have step2F : processItem ⟨convert, false⟩ i2 1 =
      .error (1, "PDF conversion failed: " ++ msg ++ canvasHint) := by
    rw [step2 false]
    unfold convertStep
    dsimp only
    rw [h2c]
    rfl
  obtain ⟨r1, hr1, hr1e, hr1p⟩ := step1 true
  obtain ⟨r3, hr3, hr3e, hr3p⟩ := step3 true
  obtain ⟨r1f, hr1f, _, _⟩ := step1 false
  refine ⟨⟨r1, r3, ?_, hr1e, hr1p, hr3e, hr3p⟩, ?_⟩
  · simp only [execute, executeGo, hr1, step2T, hr3]
  · simp only [execute, executeGo, hr1f, step2F]

/-- Claim C4 witness: the concrete 3-item batch with the failing base64
item in the middle, run in both failure modes. -/
theorem failure_policy_scenario_witness :
    (∃ r1 r3 : OutRec,
      execute ⟨demoConvert, true⟩ [demoItem1, demoItem2, demoItem3] = .ok
        [r1,
         { json := jsonMerge demoItem2.json
             [("error",
               .str ("PDF conversion failed: " ++ "bad pdf" ++ canvasHint)),
              ("originalError", .str "bad pdf")],
           binary := [],
           hasError := true,
           pairedItem := some 1 },
         r3] ∧
      r1.hasError = false ∧ r1.pairedItem = none ∧
      r3.hasError = false ∧ r3.pairedItem = none) ∧
    execute ⟨demoConvert, false⟩ [demoItem1, demoItem2, demoItem3] =
      .error (1, "PDF conversion failed: " ++ "bad pdf" ++ canvasHint) :=
  failure_policy_scenario demoConvert demoItem1 demoItem2 demoItem3
    [1] [2] [[9]] [[9]] "bad pdf" rfl rfl rfl rfl (by decide) rfl rfl
    rfl rfl rfl

end InMemNode

namespace FileNode

theorem pagesLoop_cons_none (env : FEnv) (format : String)
    (page : Option Int) (rest : List P2Result) (fs : List String) :
    pagesLoop env format (⟨none, page⟩ :: rest) fs =
      pagesLoop env format rest fs := rfl

theorem pagesLoop_cons_some_error (env : FEnv) (format : String)
    (p : String) (page : Option Int) (rest : List P2Result)
    (fs : List String) (e : String) (h : env.readFile p = .error e) :
    pagesLoop env format (⟨some p, page⟩ :: rest) fs = (.error e, fs) := by
  have hstep : pagesLoop env format (⟨some p, page⟩ :: rest) fs =
      match env.readFile p with
      | .error e => (.error e, fs)
      | .ok imageBuffer =>
        ((pagesLoop env format rest (fs.erase p)).1.map (fun imgs =>
          ({ data := imageBuffer,
             mimeType := if format = "png" then "image/png"
               else "image/jpeg",
             fileName := "page_" ++ showPage page ++ "." ++ format,
             pageNumber := jsOrOne page } : FImage) :: imgs),
         (pagesLoop env format rest (fs.erase p)).2) := rfl
  rw [hstep, h]

theorem pagesLoop_cons_some_ok (env : FEnv) (format : String)
    (p : String) (page : Option Int) (rest : List P2Result)
    (fs : List String) (buf : List Nat) (h : env.readFile p = .ok buf) :
    pagesLoop env format (⟨some p, page⟩ :: rest) fs =
      ((pagesLoop env format rest (fs.erase p)).1.map (fun imgs =>
        ({ data := buf,
           mimeType := if format = "png" then "image/png" else "image/jpeg",
           fileName := "page_" ++ showPage page ++ "." ++ format,
           pageNumber := jsOrOne page } : FImage) :: imgs),
       (pagesLoop env format rest (fs.erase p)).2) := by
  have hstep : pagesLoop env format (⟨some p, page⟩ :: rest) fs =
      match env.readFile p with
      | .error e => (.error e, fs)
      | .ok imageBuffer =>
        ((pagesLoop env format rest (fs.erase p)).1.map (fun imgs =>
          ({ data := imageBuffer,
             mimeType := if format = "png" then "image/png"
               else "image/jpeg",
             fileName := "page_" ++ showPage page ++ "." ++ format,
             pageNumber := jsOrOne page } : FImage) :: imgs),
         (pagesLoop env format rest (fs.erase p)).2) := rfl
  rw [hstep, h]

theorem pagesLoop_fs_sublist (env : FEnv) (format : String) :
    ∀ (rs : List P2Result) (fs : List String),
      List.Sublist (pagesLoop env format rs fs).2 fs := by
  intro rs
  induction rs with
  | nil => intro fs; exact List.Sublist.refl fs
  | cons r rest ih =>
    intro fs
    obtain ⟨path, page⟩ := r
    rcases path with _ | p
    · rw [pagesLoop_cons_none]
      exact ih fs
    · rcases hread : env.readFile p with e | buf
      · rw [pagesLoop_cons_some_error env format p page rest fs e hread]
      · rw [pagesLoop_cons_some_ok env format p page rest fs buf hread]
        exact (ih (fs.erase p)).trans (List.erase_sublist p fs)

theorem pagesLoop_ok_fs (env : FEnv) (format : String) :
    ∀ (rs : List P2Result) (fs fs2 : List String) (imgs : List FImage),
      pagesLoop env format rs fs = (.ok imgs, fs2) →
      fs2 = (rs.filterMap P2Result.path).foldl List.erase fs := by
  intro rs
  induction rs with
  | nil =>
    intro fs fs2 imgs h
    simp only [List.filterMap_nil, List.foldl_nil]
    exact (congrArg Prod.snd h).symm
  | cons r rest ih =>
    intro fs fs2 imgs h
    obtain ⟨path, page⟩ := r
    rcases path with _ | p
    · rw [pagesLoop_cons_none] at h
      simpa using ih fs fs2 imgs h
    · rcases hread : env.readFile p with e | buf
      · rw [pagesLoop_cons_some_error env format p page rest fs e hread] at h
        exact absurd (congrArg Prod.fst h) (by simp)
      · rw [pagesLoop_cons_some_ok env format p page rest fs buf hread] at h
        rcases hloop : pagesLoop env format rest (fs.erase p) with ⟨res, fs3⟩
        rw [hloop] at h
        rcases res with e | imgs0
        · exact absurd (congrArg Prod.fst h) (by simp [Except.map])
        · have hfs : fs3 = fs2 := congrArg Prod.snd h
          have := ih (fs.erase p) fs3 imgs0 hloop
          simp only [List.filterMap_cons]
          rw [← hfs, this, List.foldl_cons]

theorem mem_of_mem_foldl_erase :
    ∀ (ps l : List String) (a : String),
      a ∈ ps.foldl List.erase l → a ∈ l := by
  intro ps
  induction ps with
  | nil => intro l a h; exact h
  | cons p ps ih =>
    intro l a h
    exact List.mem_of_mem_erase (ih (l.erase p) a h)

theorem not_mem_foldl_erase :
    ∀ (ps l : List String) (a : String), l.Nodup → a ∈ ps →
      a ∉ ps.foldl List.erase l := by
  intro ps
  induction ps with
  | nil => intro l a _ ha; exact absurd ha (List.not_mem_nil a)
  | cons p ps ih =>
    intro l a hnd ha
    rw [List.foldl_cons]
    rcases List.mem_cons.mp ha with rfl | ha
    · intro hmem
      exact hnd.not_mem_erase (mem_of_mem_foldl_erase ps (l.erase a) a hmem)
    · exact ih (l.erase p) a (hnd.erase p) ha

theorem foldl_erase_sublist :
    ∀ (ps l : List String), List.Sublist (ps.foldl List.erase l) l := by
  intro ps
  induction ps with
  | nil => intro l; exact List.Sublist.refl l
  | cons p ps ih =>
    intro l
    rw [List.foldl_cons]
    exact (ih (l.erase p)).trans (List.erase_sublist p l)

end FileNode

namespace FileNode

/-- Claim C5 counterexample — a conversion call in which reading the second
page image back fails: the call errors out, the temporary PDF is deleted,
but the page-image file `"img2"` created during the call is still on disk
when the error propagates, so not every temp file created during the call
was deleted. -/
theorem convertCall_cleanup_counterexample :
    (convertCall demoFailEnv [] "images" "png" 150 3 "tmp.pdf" []).1 =
      .error "EIO: read error" ∧
    "img2" ∈ createdPaths demoFailEnv "tmp.pdf" ∧
    (convertCall demoFailEnv [] "images" "png" 150 3 "tmp.pdf" []).2 =
      ["img2"] :=
  ⟨rfl, by decide, rfl⟩

/-- Claim C5 amended — the temporary PDF is always deleted by the time the
call returns or fails; and when the call succeeds, every temp file created
during it (the PDF and all page-image files with a reported path) is gone.
On a failing call, page-image files not yet read back may remain
(see the counterexample).  Freshness of the created names with respect to
each other and to the pre-existing files is assumed via `Nodup`. -/
theorem convertCall_cleanup_amended (env : FEnv)
    (itemJson : List (String × FVal)) (outputProperty format : String)
    (density pdfSize : Int) (tempPdfPath : String) (fs0 : List String)
    (hnodup : (createdPaths env tempPdfPath ++ fs0).Nodup) :
    tempPdfPath ∉ (convertCall env itemJson outputProperty format density
      pdfSize tempPdfPath fs0).2 ∧
    ∀ out, (convertCall env itemJson outputProperty format density pdfSize
        tempPdfPath fs0).1 = .ok out →
      ∀ f ∈ createdPaths env tempPdfPath,
        f ∉ (convertCall env itemJson outputProperty format density pdfSize
          tempPdfPath fs0).2 := by
  rcases hb : env.bulkResults with e | results
  · have hcp : createdPaths env tempPdfPath = [tempPdfPath] := by
      unfold createdPaths
      rw [hb]
    have hcc : convertCall env itemJson outputProperty format density
        pdfSize tempPdfPath fs0 =
        (.error e, (tempPdfPath :: fs0).erase tempPdfPath) := by
      unfold convertCall
      dsimp only
      rw [hb]
    have hnd : (tempPdfPath :: fs0).Nodup := by
      rw [hcp] at hnodup
      simpa using hnodup
    constructor
    · rw [hcc]
      exact hnd.not_mem_erase
    · intro out hout
      rw [hcc] at hout
      exact absurd hout (by simp)
  · have hcp : createdPaths env tempPdfPath =
        tempPdfPath :: results.filterMap P2Result.path := by
      unfold createdPaths
      rw [hb]
    rcases hloop : pagesLoop env format results
        ((tempPdfPath :: fs0) ++ results.filterMap P2Result.path)
      with ⟨res, fs3⟩
    have hcc : convertCall env itemJson outputProperty format density
        pdfSize tempPdfPath fs0 =
        (res.map (fun images =>
          assembleOut itemJson outputProperty format density pdfSize images),
         fs3.erase tempPdfPath) := by
      unfold convertCall
      dsimp only
      rw [hb]
      dsimp only
      rw [hloop]
    rw [hcp] at hnodup
    have hnd1 : (tempPdfPath :: (results.filterMap P2Result.path ++ fs0)).Nodup := by
      simpa using hnodup
    have hperm : List.Perm
        (tempPdfPath :: (results.filterMap P2Result.path ++ fs0))
        (tempPdfPath :: (fs0 ++ results.filterMap P2Result.path)) :=
      List.Perm.cons tempPdfPath List.perm_append_comm
    have hnd2 : ((tempPdfPath :: fs0) ++
        results.filterMap P2Result.path).Nodup := by
      have h2 := hperm.nodup_iff.mp hnd1
      simpa using h2
    have hsub : List.Sublist fs3
        ((tempPdfPath :: fs0) ++ results.filterMap P2Result.path) := by
      have h3 := pagesLoop_fs_sublist env format results
        ((tempPdfPath :: fs0) ++ results.filterMap P2Result.path)
      rw [hloop] at h3
      exact h3
    have hnd3 : fs3.Nodup := hsub.nodup hnd2
    constructor
    · rw [hcc]
      exact hnd3.not_mem_erase
    · intro out hout f hf
      rw [hcc] at hout
      rw [hcc]
      rcases res with err | images
      · exact absurd hout (by simp [Except.map])
      · have hfs3 : fs3 = (results.filterMap P2Result.path).foldl List.erase
            ((tempPdfPath :: fs0) ++ results.filterMap P2Result.path) :=
          pagesLoop_ok_fs env format results _ _ _ hloop
        rw [hcp] at hf
        rcases List.mem_cons.mp hf with rfl | hf
        · exact hnd3.not_mem_erase
        · intro hmem
          have hf3 : f ∈ fs3 := List.mem_of_mem_erase hmem
          rw [hfs3] at hf3
          exact not_mem_foldl_erase (results.filterMap P2Result.path) _ f
            hnd2 hf hf3

/-- Claim C5 amended witness: a concrete successful call (all reads
succeed) deletes the temporary PDF and every created page-image file. -/
theorem convertCall_cleanup_amended_witness :
    "t.pdf" ∉ (convertCall demoSkipEnv [] "images" "png" 150 3
      "t.pdf" []).2 ∧
    ∀ out, (convertCall demoSkipEnv [] "images" "png" 150 3
        "t.pdf" []).1 = .ok out →
      ∀ f ∈ createdPaths demoSkipEnv "t.pdf",
        f ∉ (convertCall demoSkipEnv [] "images" "png" 150 3
          "t.pdf" []).2 :=
  convertCall_cleanup_amended demoSkipEnv [] "images" "png" 150 3
    "t.pdf" [] (by decide)

end FileNode

namespace FileNode

theorem fjsonSet_mem (l : List (String × FVal)) (k : String) (v : FVal) :
    (k, v) ∈ fjsonSet l k v := by
  unfold fjsonSet
  by_cases hc : ((l.map Prod.fst).contains k) = true
  · rw [if_pos hc]
    have hk : k ∈ l.map Prod.fst := by simpa using hc
    obtain ⟨p, hp, hpk⟩ := List.mem_map.mp hk
    refine List.mem_map.mpr ⟨p, hp, ?_⟩
    rw [if_pos hpk]
  · rw [if_neg hc]
    simp

theorem pagesLoop_ok_of_reads (env : FEnv) (format : String) :
    ∀ (rs : List P2Result) (fs : List String),
      (∀ p ∈ rs.filterMap P2Result.path, ∃ buf, env.readFile p = .ok buf) →
      ∃ imgs fs2, pagesLoop env format rs fs = (.ok imgs, fs2) ∧
        imgs.length = (rs.filter (fun r => r.path.isSome)).length := by
  intro rs
  induction rs with
  | nil => intro fs _; exact ⟨[], fs, rfl, rfl⟩
  | cons r rest ih =>
    intro fs hread
    obtain ⟨path, page⟩ := r
    rcases path with _ | p
    · have hfm : List.filterMap P2Result.path
          (({ path := none, page := page } : P2Result) :: rest) =
          List.filterMap P2Result.path rest := by
        simp [List.filterMap_cons]
      have hread2 : ∀ q ∈ rest.filterMap P2Result.path,
          ∃ buf2, env.readFile q = .ok buf2 := by
        intro q hq
        apply hread q
        rw [hfm]
        exact hq
      obtain ⟨imgs, fs2, hpl, hlen⟩ := ih fs hread2
      refine ⟨imgs, fs2, ?_, ?_⟩
      · rw [pagesLoop_cons_none]
        exact hpl
      · simpa [List.filter_cons] using hlen
    · have hfm : List.filterMap P2Result.path
          (({ path := some p, page := page } : P2Result) :: rest) =
          p :: List.filterMap P2Result.path rest := by
        simp [List.filterMap_cons]
      obtain ⟨buf, hbuf⟩ := hread p (by rw [hfm]; exact List.mem_cons_self p _)
      have hread2 : ∀ q ∈ rest.filterMap P2Result.path,
          ∃ buf2, env.readFile q = .ok buf2 := by
        intro q hq
        apply hread q
        rw [hfm]
        exact List.mem_cons_of_mem p hq
      obtain ⟨imgs, fs2, hpl, hlen⟩ := ih (fs.erase p) hread2
      refine ⟨FImage.mk buf
        (if format = "png" then "image/png" else "image/jpeg")
        ("page_" ++ showPage page ++ "." ++ format)
        (jsOrOne page) :: imgs, fs2, ?_, ?_⟩
      · rw [pagesLoop_cons_some_ok env format p page rest fs buf hbuf, hpl]
        rfl
      · simp [List.filter_cons, hlen]

/-- Claim C10 — backend results lacking an output path are silently
skipped: when all reported paths are readable, the call succeeds, and the
summary stored under the output property reports `totalPages` equal to the
number of results that had a path (not the number of results the backend
returned); pathless results contribute no image. -/
theorem skipped_results_totalPages (env : FEnv) (results : List P2Result)
    (itemJson : List (String × FVal)) (outputProperty format : String)
    (density pdfSize : Int) (tempPdfPath : String) (fs0 : List String)
    (hb : env.bulkResults = .ok results)
    (hread : ∀ p ∈ results.filterMap P2Result.path,
      ∃ buf, env.readFile p = .ok buf) :
    ∃ out fsF,
      convertCall env itemJson outputProperty format density pdfSize
        tempPdfPath fs0 = (.ok out, fsF) ∧
      (outputProperty, FVal.summary
        ((results.filter (fun r => r.path.isSome)).length : Int)
        format density pdfSize) ∈ out.json := by
  obtain ⟨imgs, fs2, hpl, hlen⟩ := pagesLoop_ok_of_reads env format results
    ((tempPdfPath :: fs0) ++ results.filterMap P2Result.path) hread
  have hcc : convertCall env itemJson outputProperty format density
      pdfSize tempPdfPath fs0 =
      (.ok (assembleOut itemJson outputProperty format density pdfSize
        imgs), fs2.erase tempPdfPath) := by
    unfold convertCall
    dsimp only
    rw [hb]
    dsimp only
    rw [hpl]
    rfl
  refine ⟨_, _, hcc, ?_⟩
  show (outputProperty, _) ∈ fjsonSet itemJson outputProperty
    (FVal.summary (imgs.length : Int) format density pdfSize)
  rw [hlen]
  exact fjsonSet_mem itemJson outputProperty _

/-- Claim C10 witness: three backend results of which the middle one has no
path; the summary reports `totalPages = 2`, not 3. -/
theorem skipped_results_totalPages_witness :
    ∃ out fsF,
      convertCall demoSkipEnv [] "images" "png" 150 3 "t.pdf" [] =
        (.ok out, fsF) ∧
      ("images", FVal.summary 2 "png" 150 3) ∈ out.json := by
  obtain ⟨out, fsF, h1, h2⟩ := skipped_results_totalPages demoSkipEnv
    [⟨some "a", some 1⟩, ⟨none, some 2⟩, ⟨some "b", none⟩]
    [] "images" "png" 150 3 "t.pdf" [] rfl (fun p _ => ⟨[1], rfl⟩)
  refine ⟨out, fsF, h1, ?_⟩
  have hc : ((([⟨some "a", some 1⟩, ⟨none, some 2⟩, ⟨some "b", none⟩] :
      List P2Result).filter (fun r => r.path.isSome)).length : Int) = 2 := by
    decide
  rw [hc] at h2
  exact h2

end FileNode
